import Mathlib

/-!
Verification of the linkerd-tcp core against its source.

The development shallowly embeds the three source files of the repository
(`src/lib.rs`, `src/namerd.rs`, `src/app/mod.rs`):

* the namerd discovery resolver: JSON decoding of discovery responses
  (serde semantics for the `NamerdResponse`, `NamerdAddr` and `Meta`
  structs), conversion to weighted addresses, per-request counter and
  latency accounting, and the polling stream;
* the application loader: `configure` defaults, `load_cert_resolver`;
* the `Running` supervisor future.

Rust panics (from `Option::unwrap` and `panic!`-style aborts) are modelled
explicitly with the `PanicOr` type, since several properties hinge on
whether the code aborts.  Machine floats (`f32` weights) are modelled with
`Rat`; no claim performs float arithmetic, values only flow through.
-/

/-- Result of a Rust computation that may abort the process. -/
inductive PanicOr (α : Type) where
  | panicked (msg : String)
  | value (a : α)
deriving Repr, DecidableEq

def PanicOr.isValue {α : Type} : PanicOr α → Bool
  | .panicked _ => false
  | .value _ => true

/-! ## IP addresses (model of `std::net::IpAddr` and its `FromStr`) -/

/-- An IP address: dotted-quad v4 or eight 16-bit v6 groups. -/
inductive IpAddr where
  | v4 (a b c d : Nat)
  | v6 (groups : List Nat)
deriving Repr, DecidableEq

/-- One dotted-quad octet: 1-3 decimal digits, no leading zero, value at
most 255 (the grammar of `Ipv4Addr::from_str`). -/
def parseOctet (cs : List Char) : Option Nat :=
  if cs.length = 0 || cs.length > 3 then none
  else if !cs.all (fun c => c.isDigit) then none
  else if cs.length > 1 && cs.headD 'x' = '0' then none
  else
    let v := cs.foldl (fun a c => a * 10 + (c.toNat - 48)) 0
    if v ≤ 255 then some v else none

/-- Split a character list on a separator character (the semantics of
`str::split` for a one-character pattern). -/
def splitOnChar (sep : Char) : List Char → List (List Char)
  | [] => [[]]
  | c :: rest =>
    if c = sep then [] :: splitOnChar sep rest
    else
      match splitOnChar sep rest with
      | [] => [[c]]
      | g :: gs => (c :: g) :: gs

def parseIpv4 (s : String) : Option IpAddr :=
  match (splitOnChar '.' s.toList).map parseOctet with
  | [some a, some b, some c, some d] => some (.v4 a b c d)
  | _ => none

def hexVal (c : Char) : Option Nat :=
  if c.isDigit then some (c.toNat - 48)
  else if 'a' ≤ c && c ≤ 'f' then some (c.toNat - 87)
  else if 'A' ≤ c && c ≤ 'F' then some (c.toNat - 55)
  else none

/-- One v6 group: 1-4 hex digits. -/
def parseHexGroup (cs : List Char) : Option Nat :=
  if cs.length = 0 || cs.length > 4 then none
  else cs.foldl (fun acc c => do pure ((← acc) * 16 + (← hexVal c))) (some 0)

/-- Split a character list on the two-character separator `::`
(leftmost-first, non-overlapping, the semantics of `str::split`). -/
def splitColonColon : List Char → List (List Char)
  | [] => [[]]
  | [c] => [[c]]
  | ':' :: ':' :: rest => [] :: splitColonColon rest
  | c :: rest =>
    match splitColonColon rest with
    | [] => [[c]]
    | g :: gs => (c :: g) :: gs

/-- Rust `Ipv6Addr::from_str`: eight colon-separated hex groups, with a single
`::` eliding a run of zero groups.  IPv4-mapped tails (`::ffff:1.2.3.4`)
are not modelled; no claim depends on them. -/
def parseIpv6 (s : String) : Option IpAddr :=
  match splitColonColon s.toList with
  | [whole] =>
    let gs := (splitOnChar ':' whole).map parseHexGroup
    if gs.length = 8 then
      match gs.allSome with
      | some vs => some (.v6 vs)
      | none => none
    else none
  | [l, r] =>
    let ls := if l.isEmpty then [] else (splitOnChar ':' l).map parseHexGroup
    let rs := if r.isEmpty then [] else (splitOnChar ':' r).map parseHexGroup
    if ls.length + rs.length ≤ 7 then
      match ls.allSome, rs.allSome with
      | some lv, some rv =>
        some (.v6 (lv ++ List.replicate (8 - lv.length - rv.length) 0 ++ rv))
      | _, _ => none
    else none
  | _ => none

/-- Rust `IpAddr::from_str`: try v4, then v6. -/
def parseIp (s : String) : Option IpAddr :=
  match parseIpv4 s with
  | some ip => some ip
  | none => parseIpv6 s

structure SocketAddr where
  ip : IpAddr
  port : Nat
deriving Repr, DecidableEq

/-- From `lib.rs`: `pub struct WeightedAddr(pub net::SocketAddr, pub f32)`. -/
structure WeightedAddr where
  addr : SocketAddr
  weight : Rat
deriving Repr, DecidableEq

/-! ## JSON values and serde decoding of the namerd response -/

/-- A JSON value (numbers as rationals; `f32` rounding is not modelled). -/
inductive Json where
  | null
  | bool (b : Bool)
  | num (q : Rat)
  | str (s : String)
  | arr (xs : List Json)
  | obj (kvs : List (String × Json))

def Json.isStr : Json → Bool
  | .str _ => true
  | _ => false

/-- First binding of a key in a JSON object. -/
def lookupField (kvs : List (String × Json)) (k : String) : Option Json :=
  match kvs.find? (fun p => p.1 = k) with
  | some p => some p.2
  | none => none

/-- From `namerd.rs`: `struct Meta` (all fields optional). -/
structure Meta where
  authority : Option String
  node_name : Option String
  endpoint_addr_weight : Option Rat
deriving Repr, DecidableEq

/-- From `namerd.rs`: `struct NamerdAddr { ip: String, port: u16, meta: Meta }`. -/
structure NamerdAddr where
  ip : String
  port : Nat
  meta : Meta
deriving Repr, DecidableEq

/-- From `namerd.rs`: `struct NamerdResponse` — `kind` is the JSON `type` field;
`addrs` and `meta` use `serde(default)`. -/
structure NamerdResponse where
  kind : String
  addrs : List NamerdAddr
  meta : List (String × String)
deriving Repr, DecidableEq

def decodeString : Json → Except String String
  | .str s => .ok s
  | _ => .error "invalid type: expected a string"

/-- serde `u16`: an integer in `[0, 65535]`. -/
def decodeU16 : Json → Except String Nat
  | .num q =>
    if q.den = 1 && 0 ≤ q.num && q.num < 65536 then .ok q.num.toNat
    else .error "invalid value: expected u16"
  | _ => .error "invalid type: expected u16"

/-- serde `Option<String>` for a present field: `null` is `None`. -/
def decodeOptionString : Json → Except String (Option String)
  | .null => .ok none
  | .str s => .ok (some s)
  | _ => .error "invalid type: expected a string or null"

/-- serde `Option<f32>` for a present field: any JSON number is accepted. -/
def decodeOptionF32 : Json → Except String (Option Rat)
  | .null => .ok none
  | .num q => .ok (some q)
  | _ => .error "invalid type: expected a number or null"

/-- Decode an optional field: absent means `None`. -/
def decodeOptField {α : Type} (f : Json → Except String (Option α))
    (v : Option Json) : Except String (Option α) :=
  match v with
  | none => .ok none
  | some j => f j

/-- serde-derived decoder for `Meta` (unknown fields ignored;
`node_name` is renamed `nodeName` on the wire). -/
def decodeMeta : Json → Except String Meta
  | .obj kvs => do
    let a ← decodeOptField decodeOptionString (lookupField kvs "authority")
    let n ← decodeOptField decodeOptionString (lookupField kvs "nodeName")
    let w ← decodeOptField decodeOptionF32 (lookupField kvs "endpoint_addr_weight")
    .ok ⟨a, n, w⟩
  | _ => .error "invalid type: expected struct Meta"

/-- serde-derived decoder for `NamerdAddr`: all three fields required. -/
def decodeNamerdAddr : Json → Except String NamerdAddr
  | .obj kvs => do
    let ip ← match lookupField kvs "ip" with
      | some v => decodeString v
      | none => .error "missing field ip"
    let port ← match lookupField kvs "port" with
      | some v => decodeU16 v
      | none => .error "missing field port"
    let meta ← match lookupField kvs "meta" with
      | some v => decodeMeta v
      | none => .error "missing field meta"
    .ok ⟨ip, port, meta⟩
  | _ => .error "invalid type: expected struct NamerdAddr"

/-- Decode the elements of a JSON array of addresses, in order. -/
def decodeAddrItems : List Json → Except String (List NamerdAddr)
  | [] => .ok []
  | j :: rest => do
    let a ← decodeNamerdAddr j
    let as ← decodeAddrItems rest
    .ok (a :: as)

def decodeAddrList : Json → Except String (List NamerdAddr)
  | .arr xs => decodeAddrItems xs
  | _ => .error "invalid type: expected a sequence"

/-- Decode the entries of a JSON object as string-to-string pairs. -/
def decodeStringPairs :
    List (String × Json) → Except String (List (String × String))
  | [] => .ok []
  | p :: rest =>
    match p.2 with
    | .str s => do
      let ps ← decodeStringPairs rest
      .ok ((p.1, s) :: ps)
    | _ => .error "invalid type: expected a string value"

/-- serde `HashMap<String, String>`: a JSON object, every value a string. -/
def decodeStringMap : Json → Except String (List (String × String))
  | .obj kvs => decodeStringPairs kvs
  | _ => .error "invalid type: expected a map"

/-- serde-derived decoder for `NamerdResponse`:
`type` required; `addrs`, `meta` default to empty when absent. -/
def decodeNamerdResponse : Json → Except String NamerdResponse
  | .obj kvs => do
    let kind ← match lookupField kvs "type" with
      | some v => decodeString v
      | none => .error "missing field type"
    let addrs ← match lookupField kvs "addrs" with
      | some v => decodeAddrList v
      | none => .ok []
    let meta ← match lookupField kvs "meta" with
      | some v => decodeStringMap v
      | none => .ok []
    .ok ⟨kind, addrs, meta⟩
  | _ => .error "invalid type: expected struct NamerdResponse"

/-! ## The namerd resolver pipeline (`namerd.rs`) -/

/-- Function `to_weighted_addrs`: each ip is parsed with `na.ip.parse().unwrap()` —
an unparsable ip aborts the process; weight defaults to `1.0`. -/
def to_weighted_addrs : List NamerdAddr → PanicOr (List WeightedAddr)
  | [] => .value []
  | na :: rest =>
    match parseIp na.ip with
    | none => .panicked "called Option::unwrap on a None value"
    | some ip =>
      match to_weighted_addrs rest with
      | .panicked m => .panicked m
      | .value l =>
        .value (⟨⟨ip, na.port⟩, na.meta.endpoint_addr_weight.getD 1⟩ :: l)

/-- The collected response body: either not well-formed JSON text, or a
JSON value. -/
inductive RawBody where
  | malformed
  | wellFormed (j : Json)

/-- Model of `json::from_reader` into `NamerdResponse`. -/
def from_reader : RawBody → Except String NamerdResponse
  | .malformed => .error "expected value"
  | .wellFormed j => decodeNamerdResponse j

/-- Function `parse_chunks`: dispatch on the decoded `type` field; a decode error
yields `None` (no update). -/
def parse_chunks (raw : RawBody) : PanicOr (Option (List WeightedAddr)) :=
  match from_reader raw with
  | .ok nrsp =>
    if nrsp.kind = "bound" then
      match to_weighted_addrs nrsp.addrs with
      | .panicked m => .panicked m
      | .value l => .value (some l)
    else if nrsp.kind = "neg" then .value (some [])
    else .value (some [])
  | .error _ => .value none

/-- Outcome of collecting a response body: a transport error mid-body, or
the collected chunks. -/
inductive BodyOutcome where
  | collectErr
  | collected (raw : RawBody)

/-- Function `parse_body`: a body-collection error yields `None`. -/
def parse_body : BodyOutcome → PanicOr (Option (List WeightedAddr))
  | .collectErr => .value none
  | .collected raw => parse_chunks raw

/-- Environment-chosen outcome of one poll of namerd: the GET either fails
at transport level or returns a status code and a body. -/
inductive PollOutcome where
  | transportErr
  | response (status : Nat) (body : BodyOutcome)

/-- What one `request` future does: the stream item it produces and the
metrics it records. -/
structure ReqResult where
  update : Option (List WeightedAddr)
  successIncr : Nat
  failureIncr : Nat
  latencyRecorded : Bool
deriving Repr, DecidableEq

/-- First stage of `request`: `StatusCode::Ok` (200) parses the body; any
other status and any transport error yield `None`. -/
def requestInner : PollOutcome → PanicOr (Option (List WeightedAddr))
  | .transportErr => .value none
  | .response status body =>
    if status = 200 then parse_body body else .value none

/-- Function `request`: after the inner future resolves, latency is recorded and
exactly one of the success/failure counters is incremented (success iff an
update is present).  A panic inside body parsing skips the recording
stage. -/
def request (o : PollOutcome) : PanicOr ReqResult :=
  match requestInner o with
  | .panicked m => .panicked m
  | .value upd =>
    .value { update := upd
             successIncr := if upd.isSome then 1 else 0
             failureIncr := if upd.isSome then 0 else 1
             latencyRecorded := true }

/-- Function `resolve`: the raw stream before `filter_map`, as a function of the
poll outcomes of the environment.  Element 0 is the initial request issued
immediately; element `n+1` is the request issued at the `n`-th tick of the
`period` interval timer. -/
def resolveStreamRaw (polls : Nat → PollOutcome) (n : Nat) :
    PanicOr (Option (List WeightedAddr)) :=
  match request (polls n) with
  | .panicked m => .panicked m
  | .value r => .value r.update

/-- The consumer-visible stream: `filter_map` drops `None` items.  The
first `k` raw elements yield this finite prefix of emitted address sets. -/
def resolveStreamEmitted (polls : Nat → PollOutcome) (k : Nat) :
    PanicOr (List (List WeightedAddr)) :=
  match k with
  | 0 => .value []
  | k + 1 =>
    match resolveStreamEmitted polls k with
    | .panicked m => .panicked m
    | .value acc =>
      match resolveStreamRaw polls k with
      | .panicked m => .panicked m
      | .value none => .value acc
      | .value (some l) => .value (acc ++ [l])

/-! ## TLS identities and `load_cert_resolver` (`app/mod.rs`) -/

/-- Modelled from the spec: a TLS server identity is a certificate chain
plus private key pair (the `config` module defining `TlsServerIdentity` is
outside the provided sources; only presence or absence matters here). -/
structure TlsServerIdentity where
  certChain : List String
  privateKey : String
deriving Repr, DecidableEq

/-- Model of `Sni::new(ids, def)`: the SNI certificate resolver built from the named
identities and the default identity. -/
structure Sni where
  identities : Option (List (String × TlsServerIdentity))
  defaultIdentity : Option TlsServerIdentity
deriving Repr, DecidableEq

/-- Function `load_cert_resolver` as written in `app/mod.rs`:
`is_empty` starts as `def.is_some()`, is and-ed with `ids.is_empty()` when
named identities are given, and triggers the panic. -/
def load_cert_resolver (ids : Option (List (String × TlsServerIdentity)))
    (defId : Option TlsServerIdentity) : PanicOr Sni :=
  let is_empty := defId.isSome
  let is_empty :=
    match ids with
    | some m => is_empty && m.isEmpty
    | none => is_empty
  if is_empty then .panicked "No TLS server identities specified"
  else .value ⟨ids, defId⟩

/-! ## Configuration defaults and `configure` (`app/mod.rs`) -/

def DEFAULT_BUFFER_SIZE : Nat := 8 * 1024
def DEFAULT_MAX_WAITERS : Nat := 8
def DEFAULT_NAMERD_SECONDS : Nat := 60
def DEFAULT_METRICS_SECONDS : Nat := 10

/-- The literal `"0.0.0.0:9989".parse().unwrap()`. -/
def default_admin_addr : SocketAddr := ⟨.v4 0 0 0 0, 9989⟩

/-- Struct `config::NamerdConfig`, from its uses in `Namerd::load` and
`configure` (`addr`, `path` required; `namespace`, `interval_secs`
optional).  The `namespace` field is called `nspace` here. -/
structure NamerdConfig where
  addr : SocketAddr
  path : String
  nspace : Option String
  interval_secs : Option Nat
deriving Repr, DecidableEq

structure TlsClientConfig where
  dns_name : String
  trust_certs : Option (List String)
deriving Repr, DecidableEq

structure ClientConfig where
  tls : Option TlsClientConfig
deriving Repr, DecidableEq

/-- Struct `config::ServerConfig`: a plain TCP listener or a TLS listener. -/
inductive ServerConfig where
  | tcp (addr : SocketAddr)
  | tls (addr : SocketAddr) (alpn_protocols : Option (List String))
        (default_identity : Option TlsServerIdentity)
        (identities : Option (List (String × TlsServerIdentity)))
deriving Repr, DecidableEq

structure ProxyConfig where
  label : String
  servers : List ServerConfig
  client : Option ClientConfig
  max_waiters : Option Nat
  namerd : NamerdConfig
deriving Repr, DecidableEq

structure AdminConfig where
  addr : Option SocketAddr
  metrics_interval_secs : Option Nat
deriving Repr, DecidableEq

structure AppConfig where
  proxies : List ProxyConfig
  buffer_size : Option Nat
  admin : Option AdminConfig
deriving Repr, DecidableEq

/-- The data `configure` stores in each `ProxyServer`. -/
structure ProxyOut where
  client : Option ClientConfig
  label : String
  servers : List ServerConfig
  max_waiters : Nat
deriving Repr, DecidableEq

/-- The data `configure` stores in `Admin`. -/
structure AdminOut where
  addr : SocketAddr
  metrics_interval_secs : Nat
  namerdConfigs : List NamerdConfig
deriving Repr, DecidableEq

structure ConfigureOut where
  bufferSize : Nat
  admin : AdminOut
  proxies : List ProxyOut
deriving Repr, DecidableEq

/-- Function `configure`: buffer size defaults to `DEFAULT_BUFFER_SIZE`; the proxy
loop pops configs from the back of the vector (so the built queues are in
reverse config order); per-proxy `max_waiters` defaults to
`DEFAULT_MAX_WAITERS`; the admin address and metrics interval default when
the admin stanza or its fields are absent. -/
def configure (app : AppConfig) : ConfigureOut :=
  let sz := app.buffer_size.getD DEFAULT_BUFFER_SIZE
  let popped := app.proxies.reverse
  let namerds := popped.map (fun p => p.namerd)
  let proxies := popped.map (fun p =>
    { client := p.client
      label := p.label
      servers := p.servers
      max_waiters := p.max_waiters.getD DEFAULT_MAX_WAITERS : ProxyOut })
  let addr := (app.admin.bind AdminConfig.addr).getD default_admin_addr
  let interval_s :=
    (app.admin.bind AdminConfig.metrics_interval_secs).getD DEFAULT_METRICS_SECONDS
  { bufferSize := sz
    admin := { addr := addr
               metrics_interval_secs := interval_s
               namerdConfigs := namerds }
    proxies := proxies }

/-- From `Namerd::load`: the polling interval passed to `namerd::resolve`,
with its default. -/
def namerdLoadInterval (c : NamerdConfig) : Nat :=
  c.interval_secs.getD DEFAULT_NAMERD_SECONDS

/-- From `Namerd::load`: the namespace passed to `namerd::resolve`, with its
default. -/
def namerdLoadNamespace (c : NamerdConfig) : String :=
  c.nspace.getD "default"

/-! ## The `Running` supervisor future (`app/mod.rs`) -/

/-- What a child future returns from one `poll` call. -/
inductive PollRes where
  | ready
  | notReady
  | err (e : Nat)
deriving Repr, DecidableEq

def PollRes.isErr : PollRes → Bool
  | .err _ => true
  | _ => false

/-- A child future registered with `Running`, identified by `id`; `polls`
lists the results of its successive `poll` calls (exhausted means
not-ready). -/
structure Child where
  id : Nat
  polls : List PollRes
deriving Repr, DecidableEq

/-- The result of the next `poll` of the child. -/
def Child.next (c : Child) : PollRes := c.polls.headD .notReady

/-- The child after being polled once. -/
def Child.advance (c : Child) : Child := ⟨c.id, c.polls.tail⟩

deriving instance DecidableEq for Except

/-- One call to `Running::poll`: the ids polled (in order) and either the
first child error or the queue remaining after the pass. -/
structure PollPass where
  polled : List Nat
  result : Except Nat (List Child)
deriving Repr, DecidableEq

/-- The `for i in 0..sz` loop of `Running::poll`: pop the front future,
poll it, push it back if not ready; a child error propagates immediately
through `?`. -/
def runningPollAux : Nat → List Child → PollPass
  | 0, q => ⟨[], .ok q⟩
  | _ + 1, [] => ⟨[], .ok []⟩
  | n + 1, c :: rest =>
    match c.next with
    | .err e => ⟨[c.id], .error e⟩
    | .ready =>
      let p := runningPollAux n rest
      ⟨c.id :: p.polled, p.result⟩
    | .notReady =>
      let p := runningPollAux n (rest ++ [c.advance])
      ⟨c.id :: p.polled, p.result⟩

/-- Function `Running::poll`: the loop runs `sz = len` times; afterwards the future
is `Ready(())` exactly when the queue is empty. -/
def runningPoll (q : List Child) : PollPass := runningPollAux q.length q

/-- The `Async::Ready` flag of `Running::poll`, when it returns `Ok`: true iff the
queue emptied. -/
def runningReady (q : List Child) : Except Nat Bool :=
  ((runningPoll q).result).map List.isEmpty

/-! ## The namerd URL (`resolve` in `namerd.rs`) -/

/-- Is a byte serialized literally by the url crate form-urlencoding
(`0-9A-Za-z` and `*-._`)? -/
def urlUnreserved (b : Nat) : Bool :=
  (48 ≤ b && b ≤ 57) || (65 ≤ b && b ≤ 90) || (97 ≤ b && b ≤ 122) ||
    b = 42 || b = 45 || b = 46 || b = 95

def hexDigitUpper (n : Nat) : Char :=
  if n < 10 then Char.ofNat (48 + n) else Char.ofNat (55 + n)

/-- Form-urlencode one byte: space to `+`, unreserved bytes literally,
anything else percent-encoded. -/
def encodeByte (b : Nat) : List Char :=
  if b = 32 then ['+']
  else if urlUnreserved b then [Char.ofNat b]
  else ['%', hexDigitUpper (b / 16), hexDigitUpper (b % 16)]

def formUrlencodeBytes (bs : List Nat) : List Char :=
  (bs.map encodeByte).flatten

/-- Form-urlencode a string (UTF-8 bytes, then per-byte encoding), as the
url crate serializes query pairs for `Url::parse_with_params`. -/
def formUrlencode (s : String) : String :=
  ⟨formUrlencodeBytes (s.toUTF8.toList.map UInt8.toNat)⟩

/-- The UTF-8 bytes of a string, as naturals. -/
def utf8Bytes (s : String) : List Nat := s.toUTF8.toList.map UInt8.toNat

/-- Inverse of form-urlencoding, at the byte level. -/
def formUrldecode : List Char → Option (List Nat)
  | [] => some []
  | c :: rest =>
    if c = '+' then (formUrldecode rest).map (fun bs => 32 :: bs)
    else if c = '%' then
      match rest with
      | h :: l :: rest2 => do
        let hv ← hexVal h
        let lv ← hexVal l
        let bs ← formUrldecode rest2
        pure ((hv * 16 + lv) :: bs)
      | _ => none
    else (formUrldecode rest).map (fun bs => c.toNat :: bs)

/-- The URL built by `resolve`: the `format!` base
`http://{ip}:{port}/api/1/resolve/{namespace}` with the query pair
`path={target}` appended by `Url::parse_with_params` (the url crate
form-urlencodes the query value; URL normalization of host and path
segments is not modelled — namespaces are plain tokens). -/
def resolveUrl (ip : String) (port : Nat) (nspace : String) (target : String) :
    String :=
  "http://" ++ ip ++ ":" ++ toString port ++ "/api/1/resolve/" ++ nspace
    ++ "?path=" ++ formUrlencode target

/-! ## Theorems -/

def c1defaultIdentity : TlsServerIdentity :=
  ⟨["default-cert.pem"], "default-key.pem"⟩

/-- C1: the claim says configuration load fails iff neither a default nor
a named identity is configured.  The code inverts the emptiness test
(`is_empty` starts from `def.is_some()`): with no named identities and a
configured default identity it panics, and with nothing configured at all
it succeeds — contradicting both the claim and the panic message itself. -/
theorem load_cert_resolver_inverted :
    load_cert_resolver none (some c1defaultIdentity) =
      .panicked "No TLS server identities specified" ∧
    load_cert_resolver none none = .value ⟨none, none⟩ ∧
    load_cert_resolver (some []) (some c1defaultIdentity) =
      .panicked "No TLS server identities specified" :=
  ⟨rfl, rfl, rfl⟩

def c3body : Json :=
  .obj [("type", .str "bound"),
        ("addrs", .arr [.obj [("ip", .str "not-an-ip"),
                              ("port", .num 8080),
                              ("meta", .obj [])]])]

/-- C3: the claim (and the spec) say an invalid ip fails the whole
response: no update, one failure counted.  The code instead calls
`na.ip.parse().unwrap()`, so a bound response carrying an unparsable ip
aborts the process: `parse_chunks` panics rather than returning `None`. -/
theorem invalid_ip_aborts_poll :
    decodeNamerdResponse c3body =
      .ok ⟨"bound", [⟨"not-an-ip", 8080, ⟨none, none, none⟩⟩], []⟩ ∧
    parse_chunks (.wellFormed c3body) =
      .panicked "called Option::unwrap on a None value" ∧
    ∀ upd, parse_chunks (.wellFormed c3body) ≠ .value upd := by
  refine ⟨rfl, rfl, ?_⟩
  intro upd h
  exact PanicOr.noConfusion h

def c6body : Json :=
  .obj [("type", .str "bound"),
        ("addrs", .arr [.obj [("ip", .str "256.0.0.1"),
                              ("port", .num 9001),
                              ("meta", .obj [])]])]

def c6polls : Nat → PollOutcome :=
  fun _ => .response 200 (.collected (.wellFormed c6body))

/-- C6: the claim (and the doc comment on `resolve` itself, "The returned
stream never completes") says the stream never completes and never errors
for every sequence of poll outcomes.  A poll outcome whose 200 body binds
an unparsable ip makes the very first request panic, aborting the stream. -/
theorem resolve_stream_aborts :
    resolveStreamRaw c6polls 0 =
      .panicked "called Option::unwrap on a None value" ∧
    resolveStreamEmitted c6polls 1 =
      .panicked "called Option::unwrap on a None value" :=
  ⟨rfl, rfl⟩

/-- The per-address relation between a decoded namerd address and the
emitted weighted address: ip parsed, port copied, weight defaulted to 1. -/
def addrMatches (na : NamerdAddr) (w : WeightedAddr) : Prop :=
  parseIp na.ip = some w.addr.ip ∧ w.addr.port = na.port ∧
    w.weight = na.meta.endpoint_addr_weight.getD 1

theorem to_weighted_addrs_total (nas : List NamerdAddr)
    (h : ∀ a ∈ nas, (parseIp a.ip).isSome = true) :
    ∃ l, to_weighted_addrs nas = .value l ∧ List.Forall₂ addrMatches nas l := by
  induction nas with
  | nil => exact ⟨[], rfl, .nil⟩
  | cons na rest ih =>
    obtain ⟨ip, hip⟩ :=
      Option.isSome_iff_exists.mp (h na (List.mem_cons_self na rest))
    obtain ⟨l, hl, hf⟩ := ih (fun a ha => h a (List.mem_cons_of_mem _ ha))
    refine ⟨⟨⟨ip, na.port⟩, na.meta.endpoint_addr_weight.getD 1⟩ :: l, ?_, ?_⟩
    · simp [to_weighted_addrs, hip, hl]
    · exact .cons ⟨hip, rfl, rfl⟩ hf

/-- C2 (amended): for every successfully decoded response: if `type` is
`"bound"` and every address ip parses, the decoded address list is emitted
with each weight taken from `meta.endpoint_addr_weight`, defaulting to 1.0
when absent; if `type` is `"neg"` the empty set is emitted; for any other
type the empty set is emitted.  (A bound body with an unparsable ip
instead aborts the process — the amendment; see the counterexample.) -/
theorem parse_chunks_dispatch (j : Json) (nrsp : NamerdResponse)
    (hdec : decodeNamerdResponse j = .ok nrsp) :
    (nrsp.kind = "bound" →
      (∀ a ∈ nrsp.addrs, (parseIp a.ip).isSome = true) →
      ∃ l, parse_chunks (.wellFormed j) = .value (some l) ∧
        List.Forall₂ addrMatches nrsp.addrs l) ∧
    (nrsp.kind = "neg" → parse_chunks (.wellFormed j) = .value (some [])) ∧
    (nrsp.kind ≠ "bound" → nrsp.kind ≠ "neg" →
      parse_chunks (.wellFormed j) = .value (some [])) := by
  refine ⟨?_, ?_, ?_⟩
  · intro hkind hips
    obtain ⟨l, hl, hf⟩ := to_weighted_addrs_total nrsp.addrs hips
    refine ⟨l, ?_, hf⟩
    simp [parse_chunks, from_reader, hdec, hkind, hl]
  · intro hkind
    simp [parse_chunks, from_reader, hdec, hkind]
  · intro hb hn
    simp [parse_chunks, from_reader, hdec, hb, hn]

def c2goodBody : Json :=
  .obj [("type", .str "bound"),
        ("addrs", .arr [.obj [("ip", .str "10.0.1.2"),
                              ("port", .num 7000),
                              ("meta", .obj [("endpoint_addr_weight", .num 3)])],
                        .obj [("ip", .str "10.0.1.3"),
                              ("port", .num 7001),
                              ("meta", .obj [])]])]

theorem parse_chunks_dispatch_witness :
    ∃ l, parse_chunks (.wellFormed c2goodBody) = .value (some l) ∧
      List.Forall₂ addrMatches
        [⟨"10.0.1.2", 7000, ⟨none, none, some 3⟩⟩,
         ⟨"10.0.1.3", 7001, ⟨none, none, none⟩⟩] l :=
  (parse_chunks_dispatch c2goodBody
      ⟨"bound",
       [⟨"10.0.1.2", 7000, ⟨none, none, some 3⟩⟩,
        ⟨"10.0.1.3", 7001, ⟨none, none, none⟩⟩], []⟩
      rfl).1 rfl (by decide)

def c2badBody : Json :=
  .obj [("type", .str "bound"),
        ("addrs", .arr [.obj [("ip", .str "999.999.999.999"),
                              ("port", .num 1),
                              ("meta", .obj [])]])]

/-- C2 counterexample to the claim as stated: this body decodes
successfully and has `type == "bound"`, yet the resolver does not emit the
decoded address list — it panics on the unparsable ip. -/
theorem parse_chunks_bound_counterexample :
    decodeNamerdResponse c2badBody =
      .ok ⟨"bound", [⟨"999.999.999.999", 1, ⟨none, none, none⟩⟩], []⟩ ∧
    ∀ l, parse_chunks (.wellFormed c2badBody) ≠ .value (some l) := by
  refine ⟨rfl, ?_⟩
  intro l h
  rw [show parse_chunks (.wellFormed c2badBody) =
        .panicked "called Option::unwrap on a None value" from rfl] at h
  exact PanicOr.noConfusion h

/-- C4 (amended): for every poll request that does not abort the process:
a transport error or a non-success status yields no update and one failure
increment; a successfully decoded response yields one success increment;
exactly one of the two counters is incremented, and latency is recorded.
(A bound body with an unparsable ip aborts before any recording — the
amendment; see the counterexample.) -/
theorem request_accounting (o : PollOutcome) (r : ReqResult)
    (h : request o = .value r) :
    r.latencyRecorded = true ∧
    r.successIncr + r.failureIncr = 1 ∧
    (r.successIncr = 1 ↔ r.update.isSome = true) ∧
    (o = .transportErr → r.update = none ∧ r.failureIncr = 1) ∧
    (∀ status body, o = .response status body → status ≠ 200 →
      r.update = none ∧ r.failureIncr = 1) ∧
    (∀ j nrsp, o = .response 200 (.collected (.wellFormed j)) →
      decodeNamerdResponse j = .ok nrsp → r.successIncr = 1) := by
  cases hin : requestInner o with
  | panicked m => rw [request, hin] at h; exact PanicOr.noConfusion h
  | value upd =>
    rw [request, hin] at h
    obtain rfl : (⟨upd, if upd.isSome then 1 else 0,
        if upd.isSome then 0 else 1, true⟩ : ReqResult) = r :=
      PanicOr.value.inj h
    refine ⟨rfl, ?_, ?_, ?_, ?_, ?_⟩
    · cases upd <;> simp
    · cases upd <;> simp
    · rintro rfl
      simp only [requestInner] at hin
      obtain rfl : (none : Option (List WeightedAddr)) = upd :=
        PanicOr.value.inj hin
      simp
    · rintro status body rfl hstatus
      simp only [requestInner, if_neg hstatus] at hin
      obtain rfl : (none : Option (List WeightedAddr)) = upd :=
        PanicOr.value.inj hin
      simp
    · rintro j nrsp rfl hdec
      simp only [requestInner, if_pos rfl, parse_body, parse_chunks,
        from_reader, hdec] at hin
      by_cases hb : nrsp.kind = "bound"
      · rw [if_pos hb] at hin
        cases hw : to_weighted_addrs nrsp.addrs with
        | panicked m => rw [hw] at hin; exact PanicOr.noConfusion hin
        | value l =>
          rw [hw] at hin
          obtain rfl := PanicOr.value.inj hin
          simp
      · rw [if_neg hb] at hin
        by_cases hn : nrsp.kind = "neg"
        · rw [if_pos hn] at hin
          obtain rfl := PanicOr.value.inj hin
          simp
        · rw [if_neg hn] at hin
          obtain rfl := PanicOr.value.inj hin
          simp

theorem request_accounting_witness :
    (⟨none, 0, 1, true⟩ : ReqResult).latencyRecorded = true ∧
    (⟨none, 0, 1, true⟩ : ReqResult).successIncr +
      (⟨none, 0, 1, true⟩ : ReqResult).failureIncr = 1 :=
  let h := request_accounting .transportErr ⟨none, 0, 1, true⟩ rfl
  ⟨h.1, h.2.1⟩

def c4outcome : PollOutcome :=
  .response 200 (.collected (.wellFormed (.obj
    [("type", .str "bound"),
     ("addrs", .arr [.obj [("ip", .str "300.300.300.300"),
                           ("port", .num 2),
                           ("meta", .obj [])]])])))

/-- C4 counterexample to the claim as stated: at this poll outcome the
request panics, so neither counter is incremented and no latency is
recorded for this request. -/
theorem request_counterexample :
    request c4outcome = .panicked "called Option::unwrap on a None value" ∧
    ∀ r, request c4outcome ≠ .value r := by
  refine ⟨rfl, ?_⟩
  intro r h
  rw [show request c4outcome =
        .panicked "called Option::unwrap on a None value" from rfl] at h
  exact PanicOr.noConfusion h

/-- A child is kept in the queue by one poll pass exactly when its poll
returns not-ready. -/
def Child.pending (c : Child) : Bool :=
  match c.next with
  | .notReady => true
  | _ => false

theorem runningPollAux_no_err (orig : List Child) (extra : List Child)
    (h : ∀ c ∈ orig, c.next.isErr = false) :
    runningPollAux orig.length (orig ++ extra) =
      ⟨orig.map Child.id,
       .ok (extra ++ (orig.filter Child.pending).map Child.advance)⟩ := by
  induction orig generalizing extra with
  | nil => simp [runningPollAux]
  | cons c rest ih =>
    have hc := h c (List.mem_cons_self c rest)
    have hrest : ∀ x ∈ rest, x.next.isErr = false :=
      fun x hx => h x (List.mem_cons_of_mem _ hx)
    cases hnext : c.next with
    | err e => rw [hnext] at hc; exact absurd hc (by simp [PollRes.isErr])
    | ready =>
      simp only [List.length_cons, List.cons_append, runningPollAux, hnext,
        List.append_eq]
      rw [ih extra hrest]
      simp [List.filter_cons, Child.pending, hnext]
    | notReady =>
      simp only [List.length_cons, List.cons_append, runningPollAux, hnext,
        List.append_eq]
      rw [show (rest ++ extra) ++ [c.advance] = rest ++ (extra ++ [c.advance])
            from by simp]
      rw [ih (extra ++ [c.advance]) hrest]
      simp [List.filter_cons, Child.pending, hnext]

theorem runningPollAux_first_err (orig : List Child) (c : Child)
    (q2 extra : List Child) (e : Nat)
    (hor : ∀ x ∈ orig, x.next.isErr = false) (hc : c.next = .err e) :
    runningPollAux (orig.length + (q2.length + 1)) (orig ++ c :: q2 ++ extra) =
      ⟨orig.map Child.id ++ [c.id], .error e⟩ := by
  induction orig generalizing extra with
  | nil =>
    simp only [List.nil_append, List.length_nil, Nat.zero_add, List.map_nil]
    rw [show (c :: q2) ++ extra = c :: (q2 ++ extra) from rfl]
    simp [runningPollAux, hc]
  | cons x rest ih =>
    have hx := hor x (List.mem_cons_self x rest)
    have hrest : ∀ y ∈ rest, y.next.isErr = false :=
      fun y hy => hor y (List.mem_cons_of_mem _ hy)
    have hlen : (x :: rest).length + (q2.length + 1) =
        (rest.length + (q2.length + 1)) + 1 := by
      simp [List.length_cons]; omega
    rw [hlen]
    cases hnext : x.next with
    | err e2 => rw [hnext] at hx; exact absurd hx (by simp [PollRes.isErr])
    | ready =>
      simp only [List.cons_append, runningPollAux, hnext, List.append_eq]
      rw [ih extra hrest]
      simp
    | notReady =>
      simp only [List.cons_append, runningPollAux, hnext, List.append_eq]
      rw [show ((rest ++ c :: q2 ++ extra) ++ [x.advance]) =
            rest ++ c :: q2 ++ (extra ++ [x.advance]) from by simp]
      rw [ih (extra ++ [x.advance]) hrest]
      simp

/-- The first erroring child of a queue, when one exists. -/
theorem exists_first_err (q : List Child) (hex : ∃ c ∈ q, c.next.isErr = true) :
    ∃ orig c q2 e, q = orig ++ c :: q2 ∧
      (∀ x ∈ orig, x.next.isErr = false) ∧ c.next = .err e := by
  induction q with
  | nil => simp at hex
  | cons c rest ih =>
    cases hc : c.next.isErr with
    | true =>
      cases hnext : c.next with
      | err e => exact ⟨[], c, rest, e, rfl, by simp, hnext⟩
      | ready => rw [hnext] at hc; simp [PollRes.isErr] at hc
      | notReady => rw [hnext] at hc; simp [PollRes.isErr] at hc
    | false =>
      obtain ⟨c2, hc2, herr⟩ := hex
      rcases List.mem_cons.mp hc2 with rfl | hmem
      · rw [herr] at hc; cases hc
      · obtain ⟨orig, c3, q2, e, heq, hall, hcn⟩ := ih ⟨c2, hmem, herr⟩
        refine ⟨c :: orig, c3, q2, e, by rw [heq, List.cons_append], ?_, hcn⟩
        intro x hx
        rcases List.mem_cons.mp hx with rfl | hx2
        · exact hc
        · exact hall x hx2

/-- C5: `Running` completes with success exactly when every tracked child
future completes (the queue empties, each removal witnessed by a `ready`
poll); and when a child future resolves with an error — the first
erroring child polled in the pass — `Running::poll` returns that error
immediately. -/
theorem running_completion (q : List Child) :
    ((runningPoll q).result = .ok [] ↔ ∀ c ∈ q, c.next = .ready) ∧
    (∀ orig c q2 e, q = orig ++ c :: q2 →
      (∀ x ∈ orig, x.next.isErr = false) → c.next = .err e →
      (runningPoll q).result = .error e) := by
  have herr : ∀ orig c q2 e, q = orig ++ c :: q2 →
      (∀ x ∈ orig, x.next.isErr = false) → c.next = .err e →
      (runningPoll q).result = .error e := by
    intro orig c q2 e heq hor hc
    subst heq
    have hlen : (orig ++ c :: q2).length = orig.length + (q2.length + 1) := by
      simp [List.length_append]
    rw [runningPoll, hlen]
    have hfst := runningPollAux_first_err orig c q2 [] e hor hc
    rw [List.append_nil] at hfst
    rw [hfst]
  refine ⟨⟨?_, ?_⟩, herr⟩
  · intro hok
    have hnoerr : ∀ x ∈ q, x.next.isErr = false := by
      intro x hx
      cases hxe : x.next.isErr with
      | false => rfl
      | true =>
        obtain ⟨orig, c2, q2, e, heq, hall, hcn⟩ :=
          exists_first_err q ⟨x, hx, hxe⟩
        rw [herr orig c2 q2 e heq hall hcn] at hok
        exact Except.noConfusion hok
    have hpass := runningPollAux_no_err q [] hnoerr
    rw [List.append_nil] at hpass
    rw [runningPoll, hpass] at hok
    simp only [List.nil_append] at hok
    have hfil : q.filter Child.pending = [] :=
      List.map_eq_nil_iff.mp (Except.ok.inj hok)
    intro c hc
    have hnp := List.filter_eq_nil_iff.mp hfil c hc
    have hne := hnoerr c hc
    cases hcn : c.next with
    | ready => rfl
    | notReady => rw [Child.pending, hcn] at hnp; simp at hnp
    | err e => rw [hcn] at hne; simp [PollRes.isErr] at hne
  · intro hall
    have hnoerr : ∀ x ∈ q, x.next.isErr = false := fun x hx => by
      rw [hall x hx]; rfl
    have hpass := runningPollAux_no_err q [] hnoerr
    rw [List.append_nil] at hpass
    rw [runningPoll, hpass]
    have hfil : q.filter Child.pending = [] := by
      apply List.filter_eq_nil_iff.mpr
      intro c hc
      rw [Child.pending, hall c hc]
      simp
    simp [hfil]

theorem running_completion_witness :
    (runningPoll [⟨5, [.ready]⟩, ⟨6, [.err 7]⟩]).result = .error 7 :=
  (running_completion [⟨5, [.ready]⟩, ⟨6, [.err 7]⟩]).2
    [⟨5, [.ready]⟩] ⟨6, [.err 7]⟩ [] 7 rfl (by decide) rfl

def c9queue : List Child := [⟨0, [.err 3]⟩, ⟨1, [.ready]⟩]

/-- C9 counterexample to the claim as stated: when the first child errors,
the pass stops at once; the second tracked child is never polled in that
call. -/
theorem running_poll_counterexample :
    ¬ (∀ c ∈ c9queue, c.id ∈ (runningPoll c9queue).polled) := by decide

/-- C9 (amended): a call to `Running::poll` in which no child errors polls
every tracked child exactly once (ids in queue order), removes the
children that completed, and keeps the still-pending children in their
relative order (each advanced by the one poll).  When a child errors the
call stops there instead (see the counterexample). -/
theorem running_poll_pass (q : List Child)
    (h : ∀ c ∈ q, c.next.isErr = false) :
    runningPoll q = ⟨q.map Child.id,
      .ok ((q.filter Child.pending).map Child.advance)⟩ := by
  have hpass := runningPollAux_no_err q [] h
  rw [List.append_nil] at hpass
  rw [runningPoll, hpass]
  simp

theorem running_poll_pass_witness :
    runningPoll [⟨0, [.notReady]⟩, ⟨1, [.ready]⟩, ⟨2, [.notReady]⟩] =
      ⟨[0, 1, 2], .ok [⟨0, []⟩, ⟨2, []⟩]⟩ := by
  rw [running_poll_pass _ (by decide)]
  rfl

/-- C7: with the corresponding fields absent, `configure` and the loaders
use buffer_size 8192, max_waiters 8, a 60 s discovery poll interval, a
10 s metrics interval and admin address 0.0.0.0:9989. -/
theorem configure_defaults (app : AppConfig)
    (hbuf : app.buffer_size = none)
    (haddr : app.admin.bind AdminConfig.addr = none)
    (hint : app.admin.bind AdminConfig.metrics_interval_secs = none) :
    (configure app).bufferSize = 8192 ∧
    (configure app).admin.addr = ⟨.v4 0 0 0 0, 9989⟩ ∧
    (configure app).admin.metrics_interval_secs = 10 ∧
    List.Forall₂ (fun (p : ProxyConfig) (q : ProxyOut) =>
        p.max_waiters = none → q.max_waiters = 8)
      app.proxies.reverse (configure app).proxies ∧
    (∀ c : NamerdConfig, c.interval_secs = none → namerdLoadInterval c = 60) := by
  refine ⟨?_, ?_, ?_, ?_, ?_⟩
  · simp [configure, hbuf, DEFAULT_BUFFER_SIZE]
  · simp [configure, haddr, default_admin_addr]
  · simp [configure, hint, DEFAULT_METRICS_SECONDS]
  · simp only [configure]
    refine List.forall₂_map_right_iff.mpr (List.forall₂_same.mpr ?_)
    intro p _ hnone
    simp [hnone, DEFAULT_MAX_WAITERS]
  · intro c hc
    simp [namerdLoadInterval, hc, DEFAULT_NAMERD_SECONDS]

def c7namerd : NamerdConfig :=
  ⟨⟨.v4 127 0 0 1, 4180⟩, "/svc/web", none, none⟩

def c7app : AppConfig :=
  ⟨[⟨"web", [], none, none, c7namerd⟩], none, none⟩

theorem configure_defaults_witness :
    (configure c7app).bufferSize = 8192 ∧
    (configure c7app).admin.addr = ⟨.v4 0 0 0 0, 9989⟩ ∧
    (configure c7app).admin.metrics_interval_secs = 10 ∧
    namerdLoadInterval c7namerd = 60 :=
  let h := configure_defaults c7app rfl rfl rfl
  ⟨h.1, h.2.1, h.2.2.1, h.2.2.2.2 _ rfl⟩

theorem decodeStringPairs_error (mkvs : List (String × Json))
    (h : ∃ p ∈ mkvs, p.2.isStr = false) :
    ∃ e, decodeStringPairs mkvs = .error e := by
  induction mkvs with
  | nil => simp at h
  | cons p rest ih =>
    obtain ⟨x, hx, hxs⟩ := h
    rcases List.mem_cons.mp hx with rfl | hmem
    · cases hps : x.2 with
      | str s => rw [hps] at hxs; simp [Json.isStr] at hxs
      | null => exact ⟨"invalid type: expected a string value",
          by simp [decodeStringPairs, hps]⟩
      | bool b => exact ⟨"invalid type: expected a string value",
          by simp [decodeStringPairs, hps]⟩
      | num q => exact ⟨"invalid type: expected a string value",
          by simp [decodeStringPairs, hps]⟩
      | arr xs => exact ⟨"invalid type: expected a string value",
          by simp [decodeStringPairs, hps]⟩
      | obj kvs => exact ⟨"invalid type: expected a string value",
          by simp [decodeStringPairs, hps]⟩
    · obtain ⟨e, he⟩ := ih ⟨x, hmem, hxs⟩
      cases hps : p.2 with
      | str s =>
        exact ⟨e, by simp [decodeStringPairs, hps, he, Bind.bind, Except.bind]⟩
      | null => exact ⟨"invalid type: expected a string value",
          by simp [decodeStringPairs, hps]⟩
      | bool b => exact ⟨"invalid type: expected a string value",
          by simp [decodeStringPairs, hps]⟩
      | num q => exact ⟨"invalid type: expected a string value",
          by simp [decodeStringPairs, hps]⟩
      | arr xs => exact ⟨"invalid type: expected a string value",
          by simp [decodeStringPairs, hps]⟩
      | obj kvs => exact ⟨"invalid type: expected a string value",
          by simp [decodeStringPairs, hps]⟩

/-- C10: decoding a discovery response requires every top-level `meta`
value to be a string — a response with valid `type` and `addrs` but a
non-string `meta` value is a decode error (so no update is emitted and
the poll counts as a failure) — while an absent `addrs` or `meta` field
defaults to empty and the response still decodes. -/
theorem namerd_meta_decoding (kvs : List (String × Json)) (t : String)
    (htype : lookupField kvs "type" = some (.str t)) :
    (∀ aj as mkvs, lookupField kvs "addrs" = some aj →
      decodeAddrList aj = .ok as →
      lookupField kvs "meta" = some (.obj mkvs) →
      (∃ p ∈ mkvs, p.2.isStr = false) →
      ∃ e, decodeNamerdResponse (.obj kvs) = .error e) ∧
    (lookupField kvs "addrs" = none → lookupField kvs "meta" = none →
      decodeNamerdResponse (.obj kvs) = .ok ⟨t, [], []⟩) ∧
    (∀ aj as, lookupField kvs "addrs" = some aj → decodeAddrList aj = .ok as →
      lookupField kvs "meta" = none →
      decodeNamerdResponse (.obj kvs) = .ok ⟨t, as, []⟩) ∧
    (∀ mj m, lookupField kvs "addrs" = none → lookupField kvs "meta" = some mj →
      decodeStringMap mj = .ok m →
      decodeNamerdResponse (.obj kvs) = .ok ⟨t, [], m⟩) := by
  refine ⟨?_, ?_, ?_, ?_⟩
  · intro aj as mkvs haj has hmeta hbad
    obtain ⟨e, he⟩ := decodeStringPairs_error mkvs hbad
    refine ⟨e, ?_⟩
    simp [decodeNamerdResponse, htype, haj, has, hmeta, decodeString,
      decodeStringMap, he, Bind.bind, Except.bind]
  · intro ha hm
    simp [decodeNamerdResponse, htype, ha, hm, decodeString,
      Bind.bind, Except.bind]
  · intro aj as haj has hm
    simp [decodeNamerdResponse, htype, haj, has, hm, decodeString,
      Bind.bind, Except.bind]
  · intro mj m ha hmj hm
    simp [decodeNamerdResponse, htype, ha, hmj, hm, decodeString,
      Bind.bind, Except.bind]

def c10kvs : List (String × Json) :=
  [("type", .str "bound"), ("addrs", .arr []), ("meta", .obj [("k", .num 1)])]

theorem namerd_meta_decoding_witness :
    ∃ e, decodeNamerdResponse (.obj c10kvs) = .error e :=
  (namerd_meta_decoding c10kvs "bound" rfl).1 (.arr []) [] [("k", .num 1)]
    rfl rfl rfl ⟨("k", .num 1), by simp, rfl⟩

set_option maxRecDepth 4000 in
theorem char_lit_facts :
    ∀ b < 256, urlUnreserved b = true →
      ((Char.ofNat b).toNat = b ∧ Char.ofNat b ≠ '+' ∧ Char.ofNat b ≠ '%') := by
  decide

theorem hex_digit_facts :
    ∀ n < 16, hexVal (hexDigitUpper n) = some n := by
  decide

theorem formUrldecode_encodeBytes (bs : List Nat) (h : ∀ b ∈ bs, b < 256) :
    formUrldecode (formUrlencodeBytes bs) = some bs := by
  induction bs with
  | nil => rfl
  | cons b rest ih =>
    have hb : b < 256 := h b (List.mem_cons_self b rest)
    have hrest := ih (fun x hx => h x (List.mem_cons_of_mem _ hx))
    have hstep : formUrlencodeBytes (b :: rest) =
        encodeByte b ++ formUrlencodeBytes rest := by
      simp [formUrlencodeBytes]
    rw [hstep]
    by_cases h32 : b = 32
    · subst h32
      rw [show encodeByte 32 ++ formUrlencodeBytes rest =
            '+' :: formUrlencodeBytes rest from rfl]
      rw [formUrldecode.eq_def]
      simp [hrest]
    · by_cases hu : urlUnreserved b
      · obtain ⟨htn, hne1, hne2⟩ := char_lit_facts b hb hu
        simp only [encodeByte, if_neg h32, if_pos hu, List.cons_append,
          List.nil_append]
        rw [formUrldecode.eq_def]
        simp [hne1, hne2, hrest, htn]
      · simp only [encodeByte, if_neg h32, if_neg hu, List.cons_append]
        have hdiv : b / 16 < 16 := by omega
        have hmod : b % 16 < 16 := Nat.mod_lt _ (by norm_num)
        have hh := hex_digit_facts (b / 16) hdiv
        have hl := hex_digit_facts (b % 16) hmod
        rw [formUrldecode.eq_def]
        simp [Bind.bind, Option.bind, hh, hl, hrest]
        omega

/-- C8: for every discovery base address, namespace and target path, the
poll URL is `{base}/api/1/resolve/{namespace}` with the target passed as
the query-string-escaped parameter named `path`; the escaping is faithful
(decoding the query value recovers exactly the bytes of the target). -/
theorem resolve_url_shape (ip : String) (port : Nat) (nspace target : String) :
    resolveUrl ip port nspace target =
      ("http://" ++ ip ++ ":" ++ toString port ++ "/api/1/resolve/" ++ nspace)
        ++ "?path=" ++ formUrlencode target ∧
    formUrldecode (formUrlencode target).toList = some (utf8Bytes target) := by
  constructor
  · rfl
  · have hb : ∀ b ∈ utf8Bytes target, b < 256 := by
      intro b hbm
      simp only [utf8Bytes, List.mem_map] at hbm
      obtain ⟨x, _, rfl⟩ := hbm
      exact x.toNat_lt
    have hrt := formUrldecode_encodeBytes (utf8Bytes target) hb
    rw [show (formUrlencode target).toList =
          formUrlencodeBytes (utf8Bytes target) from rfl]
    exact hrt
